import Mathlib

/-
  Verification of the usdc-event-tracker sink subsystem.

  Shallow embedding conventions:
  - a 32-byte word (go-ethereum common.Hash) is a Nat (< 2^256 where relevant);
  - a 20-byte address (common.Address) is a Nat (< 2^160);
  - byte sequences (log data, keccak input) are List Nat with entries < 256;
  - Go strings are Lean Strings; character-level helpers mirror the Go
    standard library operations actually used by the repository.
-/

/-! ## Hex rendering (go-ethereum Hash.Hex / Address.Hex) -/

/-- Lower-case hex digit for a nibble, as in go's encoding/hex. -/
def hexDigitChar (n : Nat) : Char :=
  if n < 10 then Char.ofNat (48 + n) else Char.ofNat (87 + n)

/-- Fixed-width big-endian hex rendering of a Nat: `k` nibbles, lowercase. -/
def natToHexFixed : Nat → Nat → List Char
  | 0, _ => []
  | k + 1, n => natToHexFixed k (n / 16) ++ [hexDigitChar (n % 16)]

/-- common.Hash.Hex(): "0x" followed by 64 lowercase hex nibbles. -/
def hashHex (h : Nat) : String :=
  String.mk ('0' :: 'x' :: natToHexFixed 64 h)

/-! ## Keccak-256 (legacy Keccak as used by go-ethereum for EIP-55 checksums) -/

/-- 64-bit left rotation on a Nat lane. -/
def rotl64 (v n : Nat) : Nat :=
  Nat.lor ((v <<< n) % (2 ^ 64)) (v >>> (64 - n))

/-- One step of the degree-8 LFSR (x^8 + x^6 + x^5 + x^4 + 1) generating the
Keccak round-constant bit sequence. -/
def keccakLfsrStep (R : Nat) : Nat :=
  Nat.xor ((R <<< 1) % 256) ((R >>> 7) * 0x71)

/-- The LFSR register after t steps from the initial value 1. -/
def keccakLfsrAt (t : Nat) : Nat :=
  (List.range t).foldl (fun R _ => keccakLfsrStep R) 1

/-- Keccak round constant for round r: bit rc(7r+j) placed at position 2^j-1. -/
def keccakRC (r : Nat) : Nat :=
  (List.range 7).foldl (fun acc j => acc + keccakLfsrAt (7 * r + j) % 2 * 2 ^ (2 ^ j - 1)) 0

/-- The rho rotation-offset table, generated by the standard (1,0)-starting
walk: at step t the lane (x,y) gets offset (t+1)(t+2)/2 mod 64, then
(x,y) := (y, (2x+3y) mod 5).  Entries are keyed by flat index x + 5*y; the
untouched lane (0,0) keeps offset 0. -/
def keccakRhoTable : List (Nat × Nat) :=
  ((List.range 24).foldl
    (fun st t =>
      ((st.1.2, (2 * st.1.1 + 3 * st.1.2) % 5),
       (st.1.1 + 5 * st.1.2, (t + 1) * (t + 2) / 2 % 64) :: st.2))
    ((1, 0), [])).2

/-- Rho offset of the lane with flat index i. -/
def keccakRho (i : Nat) : Nat :=
  match keccakRhoTable.find? (fun p => p.1 == i) with
  | some p => p.2
  | none => 0

/-- Keccak theta step. -/
def keccakTheta (A : List Nat) : List Nat :=
  let C := (List.range 5).map (fun x =>
    Nat.xor (A.getD x 0) (Nat.xor (A.getD (x + 5) 0)
      (Nat.xor (A.getD (x + 10) 0) (Nat.xor (A.getD (x + 15) 0) (A.getD (x + 20) 0)))))
  let D := (List.range 5).map (fun x =>
    Nat.xor (C.getD ((x + 4) % 5) 0) (rotl64 (C.getD ((x + 1) % 5) 0) 1))
  (List.range 25).map (fun i => Nat.xor (A.getD i 0) (D.getD (i % 5) 0))

/-- Keccak rho and pi steps combined. -/
def keccakRhoPi (A : List Nat) : List Nat :=
  (List.range 25).map (fun i =>
    let x := i % 5
    let y := i / 5
    let j := ((x + 3 * y) % 5) + 5 * x
    rotl64 (A.getD j 0) (keccakRho j))

/-- Keccak chi step. -/
def keccakChi (A : List Nat) : List Nat :=
  (List.range 25).map (fun i =>
    let x := i % 5
    let y := i / 5
    Nat.xor (A.getD i 0)
      (Nat.land (Nat.xor (A.getD ((x + 1) % 5 + 5 * y) 0) (2 ^ 64 - 1))
        (A.getD ((x + 2) % 5 + 5 * y) 0)))

/-- Keccak iota step for round r. -/
def keccakIota (A : List Nat) (r : Nat) : List Nat :=
  match A with
  | [] => []
  | a0 :: rest => Nat.xor a0 (keccakRC r) :: rest

/-- The Keccak-f[1600] permutation, 24 rounds. -/
def keccakF (A : List Nat) : List Nat :=
  (List.range 24).foldl (fun s r => keccakIota (keccakChi (keccakRhoPi (keccakTheta s))) r) A

/-- Legacy Keccak padding (0x01 .. 0x80) to a multiple of the 136-byte rate. -/
def keccakPad (input : List Nat) : List Nat :=
  let q := 136 - input.length % 136
  if q = 1 then input ++ [0x81]
  else input ++ [0x01] ++ List.replicate (q - 2) 0 ++ [0x80]

/-- Little-endian bytes to Nat. -/
def leBytesToNat : List Nat → Nat
  | [] => 0
  | b :: rest => b + 256 * leBytesToNat rest

/-- Big-endian bytes to Nat. -/
def beBytesToNat (bs : List Nat) : Nat :=
  bs.foldl (fun acc b => acc * 256 + b) 0

/-- Interpret a 136-byte rate block as 17 little-endian 64-bit lanes. -/
def blockLanes (block : List Nat) : List Nat :=
  (List.range 17).map (fun i => leBytesToNat ((block.drop (8 * i)).take 8))

/-- Keccak-256 hash of a byte sequence (legacy padding, as in sha3.NewLegacyKeccak256). -/
def keccak256 (input : List Nat) : List Nat :=
  let padded := keccakPad input
  let nBlocks := padded.length / 136
  let final := (List.range nBlocks).foldl (fun A bi =>
    let lanes := blockLanes ((padded.drop (136 * bi)).take 136)
    keccakF ((List.range 25).map (fun i => Nat.xor (A.getD i 0) (lanes.getD i 0))))
    (List.replicate 25 0)
  (List.range 32).map (fun i => (final.getD (i / 8) 0 >>> (8 * (i % 8))) % 256)

/-- common.Address.Hex(): EIP-55 checksummed hex string.  The lowercase 40-nibble
hex body is hashed with Keccak-256 (over its ASCII bytes); a hex letter is
uppercased when the corresponding hash nibble exceeds 7. -/
def addressHex (a : Nat) : String :=
  let lower := natToHexFixed 40 a
  let hash := keccak256 (lower.map Char.toNat)
  let cs := (List.range 40).map (fun i =>
    let c := lower.getD i ' '
    let hb := hash.getD (i / 2) 0
    let nib := if i % 2 = 0 then hb / 16 else hb % 16
    if c > '9' ∧ nib > 7 then Char.ofNat (c.toNat - 32) else c)
  String.mk ('0' :: 'x' :: cs)

/-! ## Data model (internal/sinks/sink.go, go-ethereum types) -/

/-- types.Log, restricted to the fields the repository reads.  The address is a
20-byte word, topics are 32-byte words, data is a byte sequence. -/
structure Log where
  address : Nat
  topics : List Nat
  data : List Nat
  blockNumber : Nat
  txHash : Nat
  txIndex : Nat
  index : Nat

/-- types.Receipt, restricted to the fields the repository reads. -/
structure Receipt where
  txHash : Nat
  status : Nat
  gasUsed : Nat
  logs : List Log

/-- sinks.Event from internal/sinks/sink.go. -/
structure Event where
  blockNumber : Nat
  receipt : Receipt
  logs : List Log

/-! ## Hex parsing (go-ethereum common.HexToAddress) -/

/-- Whether a char is a hex digit, as accepted by encoding/hex. -/
def isHexDigitCh (c : Char) : Bool :=
  ('0' ≤ c ∧ c ≤ '9') ∨ ('a' ≤ c ∧ c ≤ 'f') ∨ ('A' ≤ c ∧ c ≤ 'F')

/-- Numeric value of a hex digit char. -/
def hexDigitVal (c : Char) : Nat :=
  if '0' ≤ c ∧ c ≤ '9' then c.toNat - 48
  else if 'a' ≤ c ∧ c ≤ 'f' then c.toNat - 87
  else if 'A' ≤ c ∧ c ≤ 'F' then c.toNat - 55
  else 0

/-- encoding/hex DecodeString with the error ignored (common.Hex2Bytes): decodes
byte pairs until the first invalid digit and returns the bytes decoded so far. -/
def decodeHexPairs : List Char → List Nat
  | c1 :: c2 :: rest =>
    if isHexDigitCh c1 ∧ isHexDigitCh c2 then
      (16 * hexDigitVal c1 + hexDigitVal c2) :: decodeHexPairs rest
    else []
  | _ => []

/-- common.FromHex: strip an optional 0x/0X, left-pad to even length, decode. -/
def fromHex (s : String) : List Nat :=
  let cs := s.data
  let cs := match cs with
    | '0' :: 'x' :: rest => rest
    | '0' :: 'X' :: rest => rest
    | other => other
  let cs := if cs.length % 2 = 1 then '0' :: cs else cs
  decodeHexPairs cs

/-- common.BytesToAddress: keep the last 20 bytes (crop from the left).  On the
Nat representation this is the big-endian value of that suffix. -/
def bytesToAddress (bs : List Nat) : Nat :=
  beBytesToNat (bs.drop (bs.length - 20))

/-- common.HexToAddress = BytesToAddress(FromHex(s)). -/
def hexToAddress (s : String) : Nat :=
  bytesToAddress (fromHex s)

/-! ## internal/usdc: receipt filtering and event-type lookup -/

/-- usdc.NewAddress (common.HexToAddress on the hex string). -/
def NewAddress (hexAddress : String) : Nat :=
  hexToAddress hexAddress

/-- usdc.hasLogsFromAddress: true iff at least one log of the receipt has the
given address (the Go loop returns true on the first match). -/
def hasLogsFromAddress (receipt : Receipt) (address : Nat) : Bool :=
  receipt.logs.any (fun log => log.address == address)

/-- usdc.FilterByAddress: the Go loop appends each receipt that has a matching
log to an initially empty slice. -/
def FilterByAddress (receipts : List Receipt) (contractAddress : String) : List Receipt :=
  let addr := NewAddress contractAddress
  receipts.foldl
    (fun filtered receipt =>
      if hasLogsFromAddress receipt addr then filtered ++ [receipt] else filtered)
    []

/-- usdc.MapUSDCTxs delegates to FilterByAddress. -/
def MapUSDCTxs (receipts : List Receipt) (usdcAddress : String) : List Receipt :=
  FilterByAddress receipts usdcAddress

/-! ## internal/erc20: signature lookup used by the console sink via usdc.GetEventType -/

/-- The Transfer(address,address,uint256) signature hash as a 32-byte word. -/
def transferSigHash : Nat :=
  0xddf252ad1be2c89b69c2b068fc378daa952ba7f163c4a11628f55a4df523b3ef

/-- The Approval(address,address,uint256) signature hash as a 32-byte word. -/
def approvalSigHash : Nat :=
  0x8c5be1e5ebec7d5bd14f71427d1e84f3dd0314c0f7b2291e5b200ac8c7c3b925

/-- erc20.EventSignatures as an association list.  The Go map iterates in
unspecified order, but the two signature strings are distinct so at most one
entry can match a lookup and the order is immaterial. -/
def EventSignatures : List (String × String) :=
  [("Transfer", "0xddf252ad1be2c89b69c2b068fc378daa952ba7f163c4a11628f55a4df523b3ef"),
   ("Approval", "0x8c5be1e5ebec7d5bd14f71427d1e84f3dd0314c0f7b2291e5b200ac8c7c3b925")]

/-- The range loop of erc20.GetEventBySignature over the signature table. -/
def getEventBySigLoop : List (String × String) → String → Option String
  | [], _ => none
  | (event, sig) :: rest, signature =>
    if sig == signature then some event else getEventBySigLoop rest signature

/-- erc20.GetEventBySignature: find the event whose signature string matches. -/
def GetEventBySignature (signature : String) : Option String :=
  getEventBySigLoop EventSignatures signature

/-- usdc.GetEventType: look up topic.Hex() in the signature table, defaulting to
"Unknown". -/
def GetEventType (topic : Nat) : String :=
  match GetEventBySignature (hashHex topic) with
  | some event => event
  | none => "Unknown"

/-! ## Elasticsearch sink event decoding (internal/sinks/elasticsearch) -/

/-- elasticsearch.USDCLogEvent, restricted to the decoded fields. -/
structure USDCLogEvent where
  type : String
  fromAddr : String
  toAddr : String
  owner : String
  spender : String
  value : String

/-- Sink.decodeEventType: match topics[0] against the Transfer and Approval
signature hashes; empty topic lists and unmatched hashes yield "unknown". -/
def decodeEventType (topics : List Nat) : String :=
  if topics.length = 0 then "unknown"
  else if topics.getD 0 0 = transferSigHash then "Transfer"
  else if topics.getD 0 0 = approvalSigHash then "Approval"
  else "unknown"

/-- Sink.decodeEventData: for Transfer/Approval with at least 3 topics, set the
address fields from the low 20 bytes of topics[1] and topics[2] (rendered as
EIP-55 hex) and, when the data holds at least 32 bytes, the value from the
first 32-byte data word (rendered as a hash hex string). -/
def decodeEventData (event : USDCLogEvent) (topics : List Nat) (data : List Nat) : USDCLogEvent :=
  if 3 ≤ topics.length then
    if event.type = "Transfer" then
      let e1 :=
        if 3 ≤ topics.length then
          { event with
            fromAddr := addressHex (topics.getD 1 0 % 2 ^ 160),
            toAddr := addressHex (topics.getD 2 0 % 2 ^ 160) }
        else event
      if 32 ≤ data.length then
        { e1 with value := hashHex (beBytesToNat (data.take 32)) }
      else e1
    else if event.type = "Approval" then
      let e1 :=
        if 3 ≤ topics.length then
          { event with
            owner := addressHex (topics.getD 1 0 % 2 ^ 160),
            spender := addressHex (topics.getD 2 0 % 2 ^ 160) }
        else event
      if 32 ≤ data.length then
        { e1 with value := hashHex (beBytesToNat (data.take 32)) }
      else e1
    else event
  else event

/-- The full log decoding pipeline of convertEventsToDocuments: the type comes
from decodeEventType, then decodeEventData fills the decoded fields (which
start out empty). -/
def decodeLog (topics : List Nat) (data : List Nat) : USDCLogEvent :=
  decodeEventData ⟨decodeEventType topics, "", "", "", "", ""⟩ topics data

/-! ## Tracker.convertToEvents (internal/tracker) -/

/-- Tracker.convertToEvents: one sinks.Event per receipt, keeping only the logs
whose checksummed hex address string equals the configured USDC address. -/
def convertToEvents (receipts : List Receipt) (blockNumber : Nat) (usdcAddress : String) :
    List Event :=
  receipts.foldl
    (fun events receipt =>
      let usdcLogs := receipt.logs.foldl
        (fun acc log => if addressHex log.address == usdcAddress then acc ++ [log] else acc)
        []
      events ++ [⟨blockNumber, receipt, usdcLogs⟩])
    []

/-! ## Sink Manager (internal/sinks/sink.go)

A sink is modelled by its observable behaviour (the results its methods
return) plus instrumentation recording the calls the Manager makes on it. -/

/-- The results a concrete sink returns for each lifecycle method.  Write may
depend on the events passed (e.g. a sink whose Write always fails). -/
structure SinkBeh where
  name : String
  initErr : Option String
  writeErr : List Event → Option String
  closeErr : Option String

/-- A registered sink together with a record of the calls it has received. -/
structure SinkState where
  beh : SinkBeh
  writeCalls : List (List Event)
  initCalls : Nat
  closeCalls : Nat

/-- Record one Initialize call on a sink. -/
def bumpInit (s : SinkState) : SinkState :=
  ⟨s.beh, s.writeCalls, s.initCalls + 1, s.closeCalls⟩

/-- Record one Write call (with its events) on a sink. -/
def recordWrite (s : SinkState) (events : List Event) : SinkState :=
  ⟨s.beh, s.writeCalls ++ [events], s.initCalls, s.closeCalls⟩

/-- Record one Close call on a sink. -/
def bumpClose (s : SinkState) : SinkState :=
  ⟨s.beh, s.writeCalls, s.initCalls, s.closeCalls + 1⟩

/-- Manager.Initialize: call each sink's Initialize in registration order; on
the first error, return it immediately (later sinks are not touched). -/
def managerInit : List SinkState → List SinkState × Option String
  | [] => ([], none)
  | s :: rest =>
    match s.beh.initErr with
    | some e => (bumpInit s :: rest, some e)
    | none =>
      let t := managerInit rest
      (bumpInit s :: t.1, t.2)

/-- Manager.Write: call each sink's Write in registration order with the same
events; a sink error only triggers `continue`; the loop ends returning nil.
The middle component is the global call trace (sink name, events passed). -/
def managerWrite : List SinkState → List Event →
    List SinkState × List (String × List Event) × Option String
  | [], _ => ([], [], none)
  | s :: rest, events =>
    let s' := recordWrite s events
    match s.beh.writeErr events with
    | some _ =>
      -- Log error but continue with other sinks
      let t := managerWrite rest events
      (s' :: t.1, (s.beh.name, events) :: t.2.1, t.2.2)
    | none =>
      let t := managerWrite rest events
      (s' :: t.1, (s.beh.name, events) :: t.2.1, t.2.2)

/-- Manager.Close: call every sink's Close in registration order; a sink error
only triggers `continue`; the loop ends returning nil. -/
def managerClose : List SinkState → List SinkState × Option String
  | [] => ([], none)
  | s :: rest =>
    let s' := bumpClose s
    match s.beh.closeErr with
    | some _ =>
      -- Log error but continue closing others
      let t := managerClose rest
      (s' :: t.1, t.2)
    | none =>
      let t := managerClose rest
      (s' :: t.1, t.2)

/-! ## Config.Load sink parsing (internal/config/config.go)

The SINKS environment value is parsed with strings.Split / ToLower /
TrimSpace; the character-level helpers below mirror those Go functions on
ASCII input. -/

/-- strings.ToLower restricted to ASCII letters. -/
def goToLower (cs : List Char) : List Char :=
  cs.map (fun c => if 65 ≤ c.toNat ∧ c.toNat ≤ 90 then Char.ofNat (c.toNat + 32) else c)

/-- ASCII whitespace, as trimmed by strings.TrimSpace. -/
def isSpaceCh (c : Char) : Bool :=
  c.toNat = 32 ∨ c.toNat = 9 ∨ c.toNat = 10 ∨ c.toNat = 11 ∨ c.toNat = 12 ∨ c.toNat = 13

/-- strings.TrimSpace. -/
def trimSpace (cs : List Char) : List Char :=
  ((cs.dropWhile isSpaceCh).reverse.dropWhile isSpaceCh).reverse

/-- strings.Split(s, ","). -/
def splitComma : List Char → List (List Char)
  | [] => [[]]
  | c :: rest =>
    if c = ',' then [] :: splitComma rest
    else
      match splitComma rest with
      | h :: t => (c :: h) :: t
      | [] => [[c]]

/-- The switch in Load recognizing supported sink names. -/
def isSupportedSink (s : String) : Bool :=
  s == "console" || s == "sql" || s == "mongodb" || s == "kafka" ||
  s == "filesystem" || s == "elasticsearch"

/-- One iteration of the Load sink loop: trim and lowercase the piece; append
it when recognized, otherwise only warn (drop it). -/
def parseStep (acc : List String) (part : List Char) : List String :=
  let trimmed := String.mk (trimSpace (goToLower part))
  if isSupportedSink trimmed then acc ++ [trimmed] else acc

/-- The SINKS parsing logic of Config.Load: empty value defaults to
["console"]; otherwise split on commas, keep the recognized names, and fall
back to ["console"] when none was recognized. -/
def parseSinks (sinksEnv : String) : List String :=
  if sinksEnv = "" then ["console"]
  else
    let sinks := (splitComma sinksEnv.data).foldl parseStep []
    if sinks = [] then ["console"] else sinks

/-- Spec-side normal form for one SINKS piece: the trimmed, lowercased name
when recognized, nothing otherwise. -/
def sinkNorm (part : List Char) : Option String :=
  let trimmed := String.mk (trimSpace (goToLower part))
  if isSupportedSink trimmed then some trimmed else none

/-! ## Sample sinks for concrete witnesses -/

/-- A sink whose every method succeeds. -/
def sampleSinkOk : SinkState :=
  ⟨⟨"console", none, fun _ => none, none⟩, [], 0, 0⟩

/-- A sink whose Initialize, Write and Close all fail. -/
def sampleSinkBad : SinkState :=
  ⟨⟨"elasticsearch", some "connection refused", fun _ => some "bulk index failed",
    some "close failed"⟩, [], 0, 0⟩


/-! ## Helper lemmas -/

/-- natToHexFixed produces exactly k characters. -/
theorem natToHexFixed_length : ∀ (k n : Nat), (natToHexFixed k n).length = k := by
  intro k
  induction k with
  | zero => intro n; simp [natToHexFixed]
  | succ k ih => intro n; simp [natToHexFixed, ih]

/-- The hex digit table is injective on nibbles. -/
theorem hexDigitChar_inj : ∀ a < 16, ∀ b < 16, hexDigitChar a = hexDigitChar b → a = b := by
  decide

/-- Fixed-width hex rendering is injective below its capacity. -/
theorem natToHexFixed_inj : ∀ (k n m : Nat), n < 16 ^ k → m < 16 ^ k →
    natToHexFixed k n = natToHexFixed k m → n = m := by
  intro k
  induction k with
  | zero =>
    intro n m hn hm _
    simp [Nat.pow_zero] at hn hm
    omega
  | succ k ih =>
    intro n m hn hm heq
    simp only [natToHexFixed] at heq
    have hlen : (natToHexFixed k (n / 16)).length = (natToHexFixed k (m / 16)).length := by
      simp [natToHexFixed_length]
    obtain ⟨h1, h2⟩ := List.append_inj heq hlen
    have hdivn : n / 16 < 16 ^ k := by
      apply Nat.div_lt_of_lt_mul
      rw [Nat.mul_comm]
      simpa [Nat.pow_succ] using hn
    have hdivm : m / 16 < 16 ^ k := by
      apply Nat.div_lt_of_lt_mul
      rw [Nat.mul_comm]
      simpa [Nat.pow_succ] using hm
    have hdiv : n / 16 = m / 16 := ih (n / 16) (m / 16) hdivn hdivm h1
    have hmod : n % 16 = m % 16 := by
      apply hexDigitChar_inj (n % 16) (Nat.mod_lt _ (by omega)) (m % 16) (Nat.mod_lt _ (by omega))
      simpa using h2
    omega

/-- Hash hex rendering is injective on 32-byte words. -/
theorem hashHex_inj (n m : Nat) (hn : n < 2 ^ 256) (hm : m < 2 ^ 256)
    (h : hashHex n = hashHex m) : n = m := by
  have h16 : (16 : Nat) ^ 64 = 2 ^ 256 := by norm_num
  apply natToHexFixed_inj 64 n m (by omega) (by omega)
  have hd := congrArg String.data h
  simpa [hashHex] using hd

/-- The FilterByAddress loop is an order-preserving filter. -/
theorem filter_append_loop (addr : Nat) :
    ∀ (receipts : List Receipt) (acc : List Receipt),
      receipts.foldl (fun filtered receipt =>
        if hasLogsFromAddress receipt addr then filtered ++ [receipt] else filtered) acc
        = acc ++ receipts.filter (fun r => hasLogsFromAddress r addr) := by
  intro receipts
  induction receipts with
  | nil => intro acc; simp
  | cons r rest ih =>
    intro acc
    by_cases h : hasLogsFromAddress r addr <;> simp [List.filter_cons, h, ih]

/-- hasLogsFromAddress is the existence of a matching log. -/
theorem hasLogsFromAddress_iff (r : Receipt) (addr : Nat) :
    hasLogsFromAddress r addr = true ↔ ∃ l ∈ r.logs, l.address = addr := by
  simp [hasLogsFromAddress]

/-- The per-receipt log loop of convertToEvents is an order-preserving filter. -/
theorem logs_filter_loop (usdcAddress : String) :
    ∀ (logs : List Log) (acc : List Log),
      logs.foldl (fun acc log =>
        if addressHex log.address == usdcAddress then acc ++ [log] else acc) acc
        = acc ++ logs.filter (fun l => addressHex l.address == usdcAddress) := by
  intro logs
  induction logs with
  | nil => intro acc; simp
  | cons l rest ih =>
    intro acc
    rw [List.foldl_cons, ih]
    by_cases h : addressHex l.address == usdcAddress
    · rw [if_pos h, List.filter_cons, h]
      simp
    · have hf : (addressHex l.address == usdcAddress) = false := by simpa using h
      rw [if_neg h, List.filter_cons, hf]
      simp

/-- The receipt loop of convertToEvents is an order-preserving map. -/
theorem convert_events_loop (bn : Nat) (addr : String) :
    ∀ (receipts : List Receipt) (acc : List Event),
      receipts.foldl (fun events receipt =>
        let usdcLogs := receipt.logs.foldl
          (fun acc log => if addressHex log.address == addr then acc ++ [log] else acc) []
        events ++ [⟨bn, receipt, usdcLogs⟩]) acc
        = acc ++ receipts.map (fun r =>
            ⟨bn, r, r.logs.filter (fun l => addressHex l.address == addr)⟩) := by
  intro receipts
  induction receipts with
  | nil => intro acc; simp
  | cons r rest ih =>
    intro acc
    simp only [List.foldl, List.map, ih, logs_filter_loop addr r.logs []]
    simp

/-- Closed form of Manager.Write: every sink receives one Write call with the
given events, the trace lists the sinks in registration order, and the result
is nil regardless of per-sink errors. -/
theorem managerWrite_spec : ∀ (sinks : List SinkState) (events : List Event),
    managerWrite sinks events =
      (sinks.map (fun s => recordWrite s events),
       sinks.map (fun s => (s.beh.name, events)), none) := by
  intro sinks events
  induction sinks with
  | nil => simp [managerWrite]
  | cons s rest ih =>
    cases h : s.beh.writeErr events <;> simp [managerWrite, h, ih]

/-- Manager.Initialize succeeds and touches every sink once when all sinks
initialize successfully. -/
theorem managerInit_ok : ∀ (sinks : List SinkState),
    (∀ s ∈ sinks, s.beh.initErr = none) →
    managerInit sinks = (sinks.map bumpInit, none) := by
  intro sinks
  induction sinks with
  | nil => intro _; simp [managerInit]
  | cons s rest ih =>
    intro h
    have hs : s.beh.initErr = none := h s (by simp)
    simp [managerInit, hs, ih (fun x hx => h x (by simp [hx]))]

/-- Manager.Initialize stops at the first failing sink and returns its error;
sinks registered after it are never initialized. -/
theorem managerInit_fail :
    ∀ (pre : List SinkState) (f : SinkState) (post : List SinkState) (e : String),
    (∀ s ∈ pre, s.beh.initErr = none) → f.beh.initErr = some e →
    managerInit (pre ++ f :: post) = (pre.map bumpInit ++ bumpInit f :: post, some e) := by
  intro pre
  induction pre with
  | nil => intro f post e _ hf; simp [managerInit, hf]
  | cons s rest ih =>
    intro f post e h hf
    have hs : s.beh.initErr = none := h s (by simp)
    simp [managerInit, hs, ih f post e (fun x hx => h x (by simp [hx])) hf]

/-- Closed form of Manager.Close: every sink receives exactly one Close call
in registration order and the result is nil regardless of per-sink errors. -/
theorem managerClose_spec : ∀ (sinks : List SinkState),
    managerClose sinks = (sinks.map bumpClose, none) := by
  intro sinks
  induction sinks with
  | nil => simp [managerClose]
  | cons s rest ih =>
    cases h : s.beh.closeErr <;> simp [managerClose, h, ih]

/-- The signature-table loop returns none when no entry matches. -/
theorem getEventBySigLoop_none : ∀ (table : List (String × String)) (sig : String),
    (∀ p ∈ table, (p.2 == sig) = false) → getEventBySigLoop table sig = none := by
  intro table
  induction table with
  | nil => intro sig _; rfl
  | cons p rest ih =>
    intro sig h
    obtain ⟨event, psig⟩ := p
    have hp : (psig == sig) = false := h (event, psig) (by simp)
    simp [getEventBySigLoop, hp, ih sig (fun q hq => h q (by simp [hq]))]

/-- The Load sink loop keeps exactly the recognized (trimmed, lowercased)
names in order. -/
theorem parse_loop : ∀ (parts : List (List Char)) (acc : List String),
    parts.foldl parseStep acc = acc ++ parts.filterMap sinkNorm := by
  intro parts
  induction parts with
  | nil => intro acc; simp
  | cons p rest ih =>
    intro acc
    by_cases h : isSupportedSink (String.mk (trimSpace (goToLower p))) <;>
      simp [parseStep, sinkNorm, h, ih]

/-! ## Claim theorems -/

/-- C1: for every sequence of registered sinks and every Manager.Write call,
each sink's Write is invoked exactly once, in registration order, with the
same events; a per-sink Write error neither prevents the remaining sinks from
being invoked nor makes Manager.Write return an error — it always returns
success (nil). -/
theorem C1_manager_write_isolation (sinks : List SinkState) (events : List Event) :
    managerWrite sinks events =
      (sinks.map (fun s => recordWrite s events),
       sinks.map (fun s => (s.beh.name, events)), none) :=
  managerWrite_spec sinks events

/-- C2: decoding a log whose topics are [TransferSig, pad32(addrA),
pad32(addrB)] and whose data begins with a 32-byte word w yields kind
Transfer, from/to the hex renderings of the low 20 bytes of the second and
third topic words, and value the full word w rendered as its hex word. -/
theorem C2_transfer_decoding (a b : Nat) (ha : a < 2 ^ 160) (hb : b < 2 ^ 160)
    (data : List Nat) (hlen : 32 ≤ data.length) :
    (decodeLog [transferSigHash, a, b] data).type = "Transfer" ∧
    (decodeLog [transferSigHash, a, b] data).fromAddr = addressHex a ∧
    (decodeLog [transferSigHash, a, b] data).toAddr = addressHex b ∧
    (decodeLog [transferSigHash, a, b] data).value =
      hashHex (beBytesToNat (data.take 32)) := by
  norm_num at ha hb
  simp [decodeLog, decodeEventType, decodeEventData, hlen]
  rw [Nat.mod_eq_of_lt ha, Nat.mod_eq_of_lt hb]
  exact ⟨rfl, rfl⟩

/-- Witness for C2 at a concrete Transfer log. -/
theorem C2_transfer_decoding_witness :
    (1 : Nat) < 2 ^ 160 ∧ (2 : Nat) < 2 ^ 160 ∧
    32 ≤ (List.replicate 32 (0 : Nat)).length ∧
    ((decodeLog [transferSigHash, 1, 2] (List.replicate 32 0)).type = "Transfer" ∧
     (decodeLog [transferSigHash, 1, 2] (List.replicate 32 0)).fromAddr = addressHex 1 ∧
     (decodeLog [transferSigHash, 1, 2] (List.replicate 32 0)).toAddr = addressHex 2 ∧
     (decodeLog [transferSigHash, 1, 2] (List.replicate 32 0)).value =
       hashHex (beBytesToNat ((List.replicate 32 (0 : Nat)).take 32))) :=
  ⟨by norm_num, by norm_num, by simp,
   C2_transfer_decoding 1 2 (by norm_num) (by norm_num) (List.replicate 32 0) (by simp)⟩

/-- C3 counterexample: a log whose single topic is the Transfer signature
hash decodes to kind Transfer, not Unknown. -/
theorem C3_single_topic_counterexample :
    (decodeLog [transferSigHash] []).type = "Transfer" ∧
    (decodeLog [transferSigHash] []).type ≠ "Unknown" ∧
    (decodeLog [transferSigHash] []).type ≠ "unknown" := by
  decide

/-- C3 (amended): decoding is total; every log with fewer than 3 topics
decodes to a record with empty from/to (and owner/spender) fields rather than
an error, and a single-topic log whose topic is not a recognized signature
yields kind "unknown" with empty from/to. -/
theorem C3_decoding_total :
    (∀ (topics data : List Nat), topics.length < 3 →
      (decodeLog topics data).fromAddr = "" ∧ (decodeLog topics data).toAddr = "" ∧
      (decodeLog topics data).owner = "" ∧ (decodeLog topics data).spender = "") ∧
    (∀ (t : Nat) (data : List Nat), t ≠ transferSigHash → t ≠ approvalSigHash →
      (decodeLog [t] data).type = "unknown" ∧
      (decodeLog [t] data).fromAddr = "" ∧ (decodeLog [t] data).toAddr = "") := by
  constructor
  · intro topics data h
    have h3 : ¬ 3 ≤ topics.length := by omega
    simp [decodeLog, decodeEventData, h3]
  · intro t data h1 h2
    have h3 : ¬ 3 ≤ ([t] : List Nat).length := by simp
    simp [decodeLog, decodeEventType, decodeEventData, h1, h2, h3]

/-- Witness for C3 (amended) at a log with one unrecognized topic. -/
theorem C3_decoding_total_witness :
    ([(0 : Nat)] : List Nat).length < 3 ∧ (0 : Nat) ≠ transferSigHash ∧
    (0 : Nat) ≠ approvalSigHash ∧
    (decodeLog [0] []).fromAddr = "" ∧ (decodeLog [0] []).type = "unknown" :=
  ⟨by simp, by decide, by decide,
   (C3_decoding_total.1 [0] [] (by simp)).1,
   (C3_decoding_total.2 0 [] (by decide) (by decide)).1⟩

/-- C4: Manager.Initialize initializes each sink in registration order; when
all succeed it returns success, and on the first failure it returns that
error immediately, never calling Initialize on the sinks registered after the
failing one. -/
theorem C4_manager_init :
    (∀ sinks : List SinkState, (∀ s ∈ sinks, s.beh.initErr = none) →
      managerInit sinks = (sinks.map bumpInit, none)) ∧
    (∀ (pre : List SinkState) (f : SinkState) (post : List SinkState) (e : String),
      (∀ s ∈ pre, s.beh.initErr = none) → f.beh.initErr = some e →
      managerInit (pre ++ f :: post) = (pre.map bumpInit ++ bumpInit f :: post, some e)) :=
  ⟨managerInit_ok, managerInit_fail⟩

/-- Witness for C4: a failing second sink stops initialization before the
third sink and its error is returned. -/
theorem C4_manager_init_witness :
    (∀ s ∈ [sampleSinkOk], s.beh.initErr = none) ∧
    sampleSinkBad.beh.initErr = some "connection refused" ∧
    managerInit [sampleSinkOk, sampleSinkBad, sampleSinkOk] =
      ([sampleSinkOk].map bumpInit ++ bumpInit sampleSinkBad :: [sampleSinkOk],
       some "connection refused") :=
  ⟨by simp [sampleSinkOk], by simp [sampleSinkBad],
   C4_manager_init.2 [sampleSinkOk] sampleSinkBad [sampleSinkOk] "connection refused"
     (by simp [sampleSinkOk]) (by simp [sampleSinkBad])⟩

/-- C5: Manager.Close calls Close exactly once on every registered sink, in
registration order, even when an earlier sink's Close fails, and never
returns any sink's Close error — it always returns success (nil). -/
theorem C5_manager_close (sinks : List SinkState) :
    managerClose sinks = (sinks.map bumpClose, none) :=
  managerClose_spec sinks

/-- C6 counterexample: with SINKS="redis" no name is recognized, yet the
resulting sink list is ["console"], not the (empty) list of recognized
names. -/
theorem C6_unrecognized_counterexample :
    (splitComma ("redis".data)).filterMap sinkNorm = [] ∧
    parseSinks "redis" = ["console"] := by
  decide

/-- C6 (amended): unrecognized sink names are dropped (with only a warning);
whenever at least one name of the SINKS list is recognized, the resulting
sink list is exactly the recognized names (trimmed, lowercased) in their
original order; when none is recognized the list falls back to ["console"]. -/
theorem C6_recognized_sinks_kept (s : String)
    (h : ∃ part ∈ splitComma s.data, (sinkNorm part).isSome) :
    parseSinks s = (splitComma s.data).filterMap sinkNorm := by
  obtain ⟨p, hp, hsome⟩ := h
  by_cases hs : s = ""
  · subst hs
    have hnil : ("" : String).data = [] := rfl
    rw [hnil] at hp
    simp only [splitComma, List.mem_singleton] at hp
    subst hp
    simp [sinkNorm, trimSpace, goToLower, isSupportedSink] at hsome
  · have hne : (splitComma s.data).filterMap sinkNorm ≠ [] := by
      intro hemp
      rw [List.filterMap_eq_nil_iff] at hemp
      rw [hemp p hp] at hsome
      simp at hsome
    simp [parseSinks, hs, parse_loop, hne]

/-- Witness for C6 (amended) with one recognized and one unrecognized name. -/
theorem C6_recognized_sinks_kept_witness :
    (∃ part ∈ splitComma ("console,redis".data), (sinkNorm part).isSome) ∧
    parseSinks "console,redis" = (splitComma ("console,redis".data)).filterMap sinkNorm :=
  ⟨by decide, C6_recognized_sinks_kept "console,redis" (by decide)⟩

/-- C7: MapUSDCTxs (via FilterByAddress) returns exactly the input receipts
that contain at least one log whose address equals the address parsed from
the given hex string, preserving input order (an order-preserving filter). -/
theorem C7_filter_by_address :
    (∀ (receipts : List Receipt) (s : String),
      MapUSDCTxs receipts s =
        receipts.filter (fun r => hasLogsFromAddress r (NewAddress s))) ∧
    (∀ (r : Receipt) (addr : Nat),
      hasLogsFromAddress r addr = true ↔ ∃ l ∈ r.logs, l.address = addr) := by
  constructor
  · intro receipts s
    simp only [MapUSDCTxs, FilterByAddress]
    rw [filter_append_loop]
    simp
  · exact hasLogsFromAddress_iff

/-- C8: Tracker.convertToEvents yields exactly one Event per input receipt in
input order, each with the given block number and with exactly the receipt's
logs whose checksummed hex address string equals the configured USDC address
(so a receipt with no matching log still yields an Event with empty logs);
the resulting event list is then handed unchanged to every registered sink by
Manager.Write. -/
theorem C8_convert_to_events :
    (∀ (receipts : List Receipt) (bn : Nat) (addr : String),
      convertToEvents receipts bn addr =
        receipts.map (fun r =>
          ⟨bn, r, r.logs.filter (fun l => addressHex l.address == addr)⟩)) ∧
    (∀ (receipts : List Receipt) (bn : Nat) (addr : String) (sinks : List SinkState),
      managerWrite sinks (convertToEvents receipts bn addr) =
        (sinks.map (fun s => recordWrite s (convertToEvents receipts bn addr)),
         sinks.map (fun s => (s.beh.name, convertToEvents receipts bn addr)), none)) := by
  constructor
  · intro receipts bn addr
    simp only [convertToEvents]
    rw [convert_events_loop]
    simp
  · intro receipts bn addr sinks
    exact managerWrite_spec sinks _

/-- C9 counterexample: on an unmatched topic hash the console-sink decoder
(usdc.GetEventType) answers "Unknown" while the Elasticsearch decoder answers
"unknown" — the two kind strings differ. -/
theorem C9_event_type_counterexample :
    GetEventType 0 = "Unknown" ∧ decodeEventType [0] = "unknown" ∧
    GetEventType 0 ≠ decodeEventType [0] := by
  decide

/-- C9 (amended): the two event-kind decoders agree on Transfer and Approval
topics; on every unmatched topic they disagree only in case, the console path
yielding "Unknown" and the Elasticsearch path "unknown". -/
theorem C9_event_type_decoders (t : Nat) (ht : t < 2 ^ 256) :
    ((t = transferSigHash ∨ t = approvalSigHash) → GetEventType t = decodeEventType [t]) ∧
    (t ≠ transferSigHash → t ≠ approvalSigHash →
      GetEventType t = "Unknown" ∧ decodeEventType [t] = "unknown") := by
  constructor
  · rintro (rfl | rfl) <;> decide
  · intro h1 h2
    have hsigT : transferSigHash < 2 ^ 256 := by norm_num [transferSigHash]
    have hsigA : approvalSigHash < 2 ^ 256 := by norm_num [approvalSigHash]
    have hlitT : hashHex transferSigHash =
        "0xddf252ad1be2c89b69c2b068fc378daa952ba7f163c4a11628f55a4df523b3ef" := by decide
    have hlitA : hashHex approvalSigHash =
        "0x8c5be1e5ebec7d5bd14f71427d1e84f3dd0314c0f7b2291e5b200ac8c7c3b925" := by decide
    have hT : ¬ (("0xddf252ad1be2c89b69c2b068fc378daa952ba7f163c4a11628f55a4df523b3ef" :
        String) == hashHex t) = true := by
      intro hc
      exact h1 (hashHex_inj t transferSigHash ht hsigT
        ((eq_of_beq hc).symm.trans hlitT.symm))
    have hA : ¬ (("0x8c5be1e5ebec7d5bd14f71427d1e84f3dd0314c0f7b2291e5b200ac8c7c3b925" :
        String) == hashHex t) = true := by
      intro hc
      exact h2 (hashHex_inj t approvalSigHash ht hsigA
        ((eq_of_beq hc).symm.trans hlitA.symm))
    have hnone : GetEventBySignature (hashHex t) = none := by
      apply getEventBySigLoop_none
      intro p hp
      simp only [EventSignatures, List.mem_cons, List.not_mem_nil, or_false] at hp
      rcases hp with rfl | rfl
      · exact Bool.eq_false_iff.mpr hT
      · exact Bool.eq_false_iff.mpr hA
    constructor
    · unfold GetEventType
      rw [hnone]
    · simp [decodeEventType, h1, h2]

/-- Witness for C9 (amended) at the Transfer signature topic. -/
theorem C9_event_type_decoders_witness :
    transferSigHash < 2 ^ 256 ∧
    GetEventType transferSigHash = decodeEventType [transferSigHash] :=
  ⟨by norm_num [transferSigHash],
   (C9_event_type_decoders transferSigHash (by norm_num [transferSigHash])).1 (Or.inl rfl)⟩

/-- C10: when SINKS is unset (empty) or contains no recognized sink name,
Config.Load's sink list is exactly ["console"] — never empty and never an
error from that condition. -/
theorem C10_sinks_default_console (s : String)
    (h : ∀ part ∈ splitComma s.data,
      isSupportedSink (String.mk (trimSpace (goToLower part))) = false) :
    parseSinks s = ["console"] := by
  by_cases hs : s = ""
  · subst hs; rfl
  · have hnil : (splitComma s.data).filterMap sinkNorm = [] := by
      rw [List.filterMap_eq_nil_iff]
      intro p hp
      simp [sinkNorm, h p hp]
    simp [parseSinks, hs, parse_loop, hnil]

/-- Witness for C10 with an unrecognized SINKS value. -/
theorem C10_sinks_default_console_witness :
    (∀ part ∈ splitComma ("redis, ".data),
      isSupportedSink (String.mk (trimSpace (goToLower part))) = false) ∧
    parseSinks "redis, " = ["console"] :=
  ⟨by decide, C10_sinks_default_console "redis, " (by decide)⟩
